import Mathlib

/-!
Verification of the MQTT-Twitter GUI pair (publisher.py / subscriber.py).

The development shallowly embeds the program logic:
* strings are `String` / `List Char`;
* Python `str.strip`, the regex substitutions of `sanitize_hashtag`, and
  `bytes.decode("utf-8", errors="replace")` are modelled as executable
  functions on character / byte lists;
* the stateful GUI applications are modelled by explicit state records and
  step functions returning the new state together with the observable broker
  calls and enqueued events.
-/

namespace MqttTwitter

/-- Python whitespace class: the code points for which `str.isspace()` holds
and which `\s` matches in a `re` pattern over `str`.  Used by `str.strip()`
and by `re.sub(r"\s+", "_", tag)`. -/
def isPySpace (c : Char) : Bool :=
  c.toNat == 32 || (9 ≤ c.toNat && c.toNat ≤ 13) || (28 ≤ c.toNat && c.toNat ≤ 31) ||
  c.toNat == 133 || c.toNat == 160 || c.toNat == 5760 ||
  (8192 ≤ c.toNat && c.toNat ≤ 8202) || c.toNat == 8232 || c.toNat == 8233 ||
  c.toNat == 8239 || c.toNat == 8287 || c.toNat == 12288

/-- Characters kept by `re.sub(r"[^A-Za-z0-9_\-]", "", tag)`:
letters, digits, underscore and dash. -/
def isAllowed (c : Char) : Bool :=
  (65 ≤ c.toNat && c.toNat ≤ 90) || (97 ≤ c.toNat && c.toNat ≤ 122) ||
  (48 ≤ c.toNat && c.toNat ≤ 57) || c.toNat == 95 || c.toNat == 45

/-- Python `str.strip()` on a character list: drop leading and trailing
whitespace. -/
def pyStrip (l : List Char) : List Char :=
  ((l.dropWhile isPySpace).reverse.dropWhile isPySpace).reverse

/-- The `if tag.startswith("#"): tag = tag[1:]` step: remove one leading
hash mark if present. -/
def dropHash (l : List Char) : List Char :=
  match l with
  | [] => []
  | c :: rest => if c = '#' then rest else c :: rest

/-- Scanner for `re.sub(r"\s+", "_", tag)`: the flag records whether the
scanner is inside a whitespace run whose underscore has already been
emitted. -/
def collapseWSAux : Bool → List Char → List Char
  | _, [] => []
  | inRun, c :: rest =>
    if isPySpace c then
      if inRun then collapseWSAux true rest
      else '_' :: collapseWSAux true rest
    else c :: collapseWSAux false rest

/-- Model of `re.sub(r"\s+", "_", tag)`: every maximal run of whitespace is
replaced by a single underscore. -/
def collapseWS (l : List Char) : List Char :=
  collapseWSAux false l

/-- The function `sanitize_hashtag` of publisher.py / subscriber.py, on character
lists: strip, drop one leading '#', collapse whitespace runs to '_', keep
only `[A-Za-z0-9_-]`. -/
def sanitizeList (l : List Char) : List Char :=
  ((collapseWS (dropHash (pyStrip l))).filter isAllowed)

/-- String version of `sanitize_hashtag` (the function shared verbatim by
both source files). -/
def sanitize_hashtag (s : String) : String :=
  ⟨sanitizeList s.data⟩

theorem length_dropWhile_le (p : α → Bool) (l : List α) :
    (l.dropWhile p).length ≤ l.length := by
  induction l with
  | nil => simp [List.dropWhile]
  | cons a l ih =>
    simp only [List.dropWhile]
    split
    · simp only [List.length_cons]; omega
    · simp

/-- Spec-side collapse step, written directly as "replace each maximal run
of whitespace with a single underscore". -/
def collapseRuns : List Char → List Char
  | [] => []
  | c :: rest =>
    if isPySpace c then '_' :: collapseRuns (rest.dropWhile isPySpace)
    else c :: collapseRuns rest
termination_by l => l.length
decreasing_by
  · simp only [List.length_cons]
    have := length_dropWhile_le isPySpace rest
    omega
  · simp

/-- The normalization pipeline exactly as the spec words it: trim
leading/trailing whitespace, strip one leading marker character '#' if
present, collapse any run of whitespace to a single underscore, remove
every character not in [A-Za-z0-9_-]. -/
def normalize (s : String) : String :=
  ⟨(collapseRuns (dropHash (pyStrip s.data))).filter isAllowed⟩

theorem collapseWSAux_eq_collapseRuns (l : List Char) :
    collapseWSAux false l = collapseRuns l ∧
    collapseWSAux true l = collapseRuns (l.dropWhile isPySpace) := by
  induction l with
  | nil => simp [collapseWSAux, collapseRuns]
  | cons c rest ih =>
    by_cases h : isPySpace c = true
    · constructor
      · rw [collapseRuns]
        simp [collapseWSAux, h, ih.2]
      · rw [List.dropWhile_cons_of_pos h, ← ih.2]
        simp [collapseWSAux, h]
    · rw [Bool.not_eq_true] at h
      constructor
      · rw [collapseRuns]
        simp [collapseWSAux, h, ih.1]
      · rw [List.dropWhile_cons_of_neg (by simp [h]), collapseRuns]
        simp [collapseWSAux, h, ih.1]

end MqttTwitter

namespace MqttTwitter

theorem sanitizeList_eq_spec (l : List Char) :
    sanitizeList l = (collapseRuns (dropHash (pyStrip l))).filter isAllowed := by
  unfold sanitizeList collapseWS
  rw [(collapseWSAux_eq_collapseRuns (dropHash (pyStrip l))).1]

/-- C1: `sanitize_hashtag` computes exactly the spec's pipeline (trim,
strip one leading '#', collapse whitespace runs to '_', delete characters
outside [A-Za-z0-9_-]), and agrees with the spec's worked examples. -/
theorem sanitize_hashtag_is_normalize :
    (∀ s : String, sanitize_hashtag s = normalize s) ∧
    sanitize_hashtag "#iot" = "iot" ∧
    sanitize_hashtag "iot" = "iot" ∧
    sanitize_hashtag "  my tag! " = "my_tag" ∧
    sanitize_hashtag "###" = "" := by
  refine ⟨fun s => ?_, by decide, by decide, by decide, by decide⟩
  unfold sanitize_hashtag normalize
  rw [sanitizeList_eq_spec]

theorem isAllowed_not_space {c : Char} (h : isAllowed c = true) :
    isPySpace c = false := by
  simp only [isAllowed, decide_eq_true_eq, Bool.or_eq_true, Bool.and_eq_true,
    beq_iff_eq] at h
  rw [← Bool.not_eq_true]
  simp only [isPySpace, decide_eq_true_eq, Bool.or_eq_true, Bool.and_eq_true,
    beq_iff_eq]
  omega

theorem isAllowed_ne_hash {c : Char} (h : isAllowed c = true) : c ≠ '#' := by
  intro heq
  rw [heq] at h
  exact absurd h (by decide)

theorem dropWhile_eq_self_of (p : α → Bool) (l : List α)
    (h : ∀ c ∈ l, p c = false) : l.dropWhile p = l := by
  cases l with
  | nil => rfl
  | cons c rest => simp [List.dropWhile, h c (by simp)]

theorem collapseWSAux_eq_self_of (l : List Char)
    (h : ∀ c ∈ l, isPySpace c = false) : collapseWSAux false l = l := by
  induction l with
  | nil => rfl
  | cons c rest ih =>
    simp only [collapseWSAux, h c (by simp)]
    simp only [Bool.false_eq_true, if_false, List.cons.injEq, true_and]
    exact ih fun d hd => h d (by simp [hd])

theorem sanitizeList_fixed (l : List Char)
    (h : ∀ c ∈ l, isAllowed c = true) : sanitizeList l = l := by
  have hsp : ∀ c ∈ l, isPySpace c = false := fun c hc => isAllowed_not_space (h c hc)
  have h1 : pyStrip l = l := by
    unfold pyStrip
    rw [dropWhile_eq_self_of _ _ hsp,
        dropWhile_eq_self_of _ _ (fun c hc => hsp c (List.mem_reverse.mp hc)),
        List.reverse_reverse]
  have h2 : dropHash l = l := by
    cases l with
    | nil => rfl
    | cons c rest =>
      have : c ≠ '#' := isAllowed_ne_hash (h c (by simp))
      simp [dropHash, this]
  unfold sanitizeList collapseWS
  rw [h1, h2, collapseWSAux_eq_self_of l hsp, List.filter_eq_self.mpr h]

theorem mem_sanitizeList_allowed {c : Char} {l : List Char}
    (h : c ∈ sanitizeList l) : isAllowed c = true := by
  unfold sanitizeList at h
  exact List.of_mem_filter h

/-- C2: `sanitize_hashtag` is idempotent and its output only has
characters in [A-Za-z0-9_-]. -/
theorem sanitize_hashtag_idempotent :
    (∀ s : String, sanitize_hashtag (sanitize_hashtag s) = sanitize_hashtag s) ∧
    (∀ s : String, ∀ c ∈ (sanitize_hashtag s).data, isAllowed c = true) := by
  constructor
  · intro s
    show (⟨sanitizeList (sanitizeList s.data)⟩ : String) = ⟨sanitizeList s.data⟩
    rw [sanitizeList_fixed _ (fun c hc => mem_sanitizeList_allowed hc)]
  · intro s c hc
    exact mem_sanitizeList_allowed hc

end MqttTwitter

namespace MqttTwitter

/-- Python `str.strip()` on a string. -/
def pyStripStr (s : String) : String := ⟨pyStrip s.data⟩

/-- The source constant `TOPIC_PREFIX = "twitter/"`. -/
def TOPIC_STEM : String := "twitter/"

/-- The mutable state of `PublisherApp` that `_publish` reads and writes:
the `connected` flag, whether `self.client` is set, and the three input
widgets. -/
structure PubState where
  connected : Bool
  hasClient : Bool
  username : String
  hashtag : String
  tweet : String
  deriving Repr, DecidableEq

/-- Outcome of one `_publish` invocation, as observed by the user. -/
inductive PublishResult where
  | notConnected
  | invalidTopic
  | emptyPayload
  | published (topic payload : String)
  deriving Repr, DecidableEq

/-- Model of `PublisherApp._publish`, with `rc` the return code the broker client
gives back from `client.publish`.  Returns (result, new state, number of
`client.publish` calls issued).  On `rc = 0` the tweet box is cleared. -/
def publishStep (st : PubState) (rc : Nat) : PublishResult × PubState × Nat :=
  if st.connected = false ∨ st.hasClient = false then (.notConnected, st, 0)
  else
    let username := if pyStripStr st.username = "" then "anonymous" else pyStripStr st.username
    let hashtag := sanitize_hashtag st.hashtag
    let text := pyStripStr st.tweet
    if hashtag = "" then (.invalidTopic, st, 0)
    else if text = "" then (.emptyPayload, st, 0)
    else
      (.published (TOPIC_STEM ++ hashtag) (username ++ ": " ++ text),
       if rc = 0 then { st with tweet := "" } else st, 1)

/-- C3: whatever publish reaches the broker client carries topic
`"twitter/" ++ sanitize_hashtag hashtag` and payload
`"<username>: <tweet-text>"`, with `"anonymous"` replacing an empty
(stripped) username. -/
theorem publish_wire_format (st : PubState) (rc : Nat) (t p : String)
    (h : (publishStep st rc).1 = .published t p) :
    t = TOPIC_STEM ++ sanitize_hashtag st.hashtag ∧
    p = (if pyStripStr st.username = "" then "anonymous"
         else pyStripStr st.username) ++ ": " ++ pyStripStr st.tweet := by
  simp only [publishStep] at h
  split at h
  · simp at h
  · split at h
    · simp at h
    · split at h
      · simp at h
      · simp only [PublishResult.published.injEq] at h
        exact ⟨h.1.symm, h.2.symm⟩

/-- Witness for `publish_wire_format` at a concrete publishing state. -/
theorem publish_wire_format_witness :
    "twitter/iot" = TOPIC_STEM ++ sanitize_hashtag "#iot" ∧
    "alice: hello" =
      (if pyStripStr " alice " = "" then "anonymous"
       else pyStripStr " alice ") ++ ": " ++ pyStripStr "hello\n" :=
  publish_wire_format ⟨true, true, " alice ", "#iot", "hello\n"⟩ 0
    "twitter/iot" "alice: hello" (by decide)

/-- C4: `_publish` rejects with the matching error, makes no broker call
and leaves state unchanged when disconnected, when the hashtag normalizes
to the empty string, or when the stripped body is empty; otherwise it makes
exactly one `client.publish` call. -/
theorem publish_guard (st : PubState) (rc : Nat) :
    (st.connected = false ∨ st.hasClient = false →
      publishStep st rc = (.notConnected, st, 0)) ∧
    (st.connected = true → st.hasClient = true →
      sanitize_hashtag st.hashtag = "" →
      publishStep st rc = (.invalidTopic, st, 0)) ∧
    (st.connected = true → st.hasClient = true →
      sanitize_hashtag st.hashtag ≠ "" → pyStripStr st.tweet = "" →
      publishStep st rc = (.emptyPayload, st, 0)) ∧
    (st.connected = true → st.hasClient = true →
      sanitize_hashtag st.hashtag ≠ "" → pyStripStr st.tweet ≠ "" →
      (publishStep st rc).2.2 = 1 ∧
      ∃ tp pl, (publishStep st rc).1 = .published tp pl) := by
  refine ⟨fun h => ?_, fun h1 h2 h3 => ?_, fun h1 h2 h3 h4 => ?_,
    fun h1 h2 h3 h4 => ?_⟩
  · simp [publishStep, h]
  · simp [publishStep, h1, h2, h3]
  · simp [publishStep, h1, h2, h3, h4]
  · simp [publishStep, h1, h2, h3, h4]

/-- Witness for `publish_guard`: each guard branch exercised at a concrete
state. -/
theorem publish_guard_witness :
    publishStep ⟨false, false, "a", "#iot", "hi"⟩ 0 =
      (.notConnected, ⟨false, false, "a", "#iot", "hi"⟩, 0) ∧
    publishStep ⟨true, true, "a", "###", "hi"⟩ 0 =
      (.invalidTopic, ⟨true, true, "a", "###", "hi"⟩, 0) ∧
    publishStep ⟨true, true, "a", "#iot", "  "⟩ 0 =
      (.emptyPayload, ⟨true, true, "a", "#iot", "  "⟩, 0) ∧
    (publishStep ⟨true, true, "a", "#iot", "hi"⟩ 0).2.2 = 1 ∧
    ∃ tp pl, (publishStep ⟨true, true, "a", "#iot", "hi"⟩ 0).1 = .published tp pl :=
  ⟨(publish_guard ⟨false, false, "a", "#iot", "hi"⟩ 0).1 (Or.inl rfl),
   (publish_guard ⟨true, true, "a", "###", "hi"⟩ 0).2.1 rfl rfl (by decide),
   (publish_guard ⟨true, true, "a", "#iot", "  "⟩ 0).2.2.1 rfl rfl
     (by decide) (by decide),
   (publish_guard ⟨true, true, "a", "#iot", "hi"⟩ 0).2.2.2 rfl rfl
     (by decide) (by decide)⟩

end MqttTwitter

namespace MqttTwitter

/-- Kind tag of the pairs put on `status_queue`. -/
inductive StatusKind where
  | connected
  | disconnected
  | error
  deriving Repr, DecidableEq

/-- An entry of `status_queue`: `(kind, message-text)`. -/
abbrev StatusEvent := StatusKind × String

/-- The mutable state of `SubscriberApp` relevant to subscription handling:
the `connected` flag, whether `self.client` is set, the `subscribed` set
(modelled as its iteration list) and the labels shown in the `sub_list`
Listbox. -/
structure SubState where
  connected : Bool
  hasClient : Bool
  subscribed : List String
  displayed : List String
  deriving Repr, DecidableEq

/-- Model of `SubscriberApp._subscribe_to_topic`: returns the broker topic passed to
`client.subscribe`, or `none` when the call is deferred ("(queued)"). -/
def subscribeToTopic (st : SubState) (tag : String) : Option String :=
  if st.connected = false ∨ st.hasClient = false then none
  else some (TOPIC_STEM ++ tag)

/-- One iteration of `_drain_status_queue`'s loop body: process one status
event; returns the updated state and the broker `subscribe` calls issued
(the re-subscription sweep on a `connected` event). -/
def processStatusEvent (st : SubState) (ev : StatusEvent) :
    SubState × List String :=
  match ev.1 with
  | .connected =>
    let st1 := { st with connected := true }
    (st1, st1.subscribed.filterMap fun tag => subscribeToTopic st1 tag)
  | .disconnected => ({ st with connected := false }, [])
  | .error => ({ st with connected := false }, [])

/-- Processing of a whole drained batch of status events, accumulating the
broker `subscribe` calls in order. -/
def processStatusEvents (st : SubState) (evs : List StatusEvent) :
    SubState × List String :=
  evs.foldl
    (fun acc ev =>
      ((processStatusEvent acc.1 ev).1, acc.2 ++ (processStatusEvent acc.1 ev).2))
    (st, [])

/-- C5: processing a `connected` event re-subscribes every tag of the
SubscriptionSet on topic `"twitter/" ++ tag`; in particular after a
disconnect/reconnect cycle with set `{"iot","news"}` both topics are
re-subscribed with no user action. -/
theorem resubscribe_on_connected (st : SubState) (msg : String)
    (hcl : st.hasClient = true) :
    (processStatusEvent st (.connected, msg)).2 =
      st.subscribed.map (fun tag => TOPIC_STEM ++ tag) ∧
    (∀ tag ∈ st.subscribed,
      (TOPIC_STEM ++ tag) ∈ (processStatusEvent st (.connected, msg)).2) ∧
    (processStatusEvents ⟨true, true, ["iot", "news"], ["#iot", "#news"]⟩
        [(.disconnected, "Disconnected from broker."),
         (.connected, "Connected to broker.")]).2 =
      ["twitter/iot", "twitter/news"] := by
  have hfm : ∀ l : List String,
      l.filterMap (fun tag => some (TOPIC_STEM ++ tag)) =
        l.map (fun tag => TOPIC_STEM ++ tag) := by
    intro l
    induction l with
    | nil => rfl
    | cons a l ih => simp [List.filterMap_cons, ih]
  have hmap : (processStatusEvent st (.connected, msg)).2 =
      st.subscribed.map (fun tag => TOPIC_STEM ++ tag) := by
    simp [processStatusEvent, subscribeToTopic, hcl, hfm]
  refine ⟨hmap, ?_, by decide⟩
  intro tag htag
  rw [hmap]
  exact List.mem_map_of_mem _ htag

/-- Witness for `resubscribe_on_connected` at the reconnect scenario
state. -/
theorem resubscribe_on_connected_witness :
    (processStatusEvent ⟨false, true, ["iot", "news"], ["#iot", "#news"]⟩
        (.connected, "Connected to broker.")).2 =
      ["iot", "news"].map (fun tag => TOPIC_STEM ++ tag) :=
  (resubscribe_on_connected ⟨false, true, ["iot", "news"], ["#iot", "#news"]⟩
    "Connected to broker." rfl).1

/-- Model of `queue.Queue.put` as seen by the GUI: append to the FIFO buffer. -/
def pushEvent (q : List α) (e : α) : List α := q ++ [e]

/-- The drain loop shared by `_drain_status_queue` and
`_drain_message_queue`: `get_nowait` until `queue.Empty`, collecting the
events in dequeue order; returns (drained events, remaining queue). -/
def drainLoop : List α → List α × List α
  | [] => ([], [])
  | e :: rest => ((e :: (drainLoop rest).1), (drainLoop rest).2)

/-- C6: a drain returns exactly the events enqueued since the previous
drain, in enqueue order, and empties the bridge; a drain with no
intervening push returns the empty sequence and leaves the bridge
unchanged. -/
theorem drain_delivers_all (q evs : List StatusEvent) :
    evs.foldl pushEvent q = q ++ evs ∧
    (drainLoop q).1 = q ∧
    (drainLoop q).2 = [] ∧
    drainLoop ([] : List StatusEvent) = ([], []) := by
  refine ⟨?_, ?_, ?_, rfl⟩
  · induction evs generalizing q with
    | nil => simp
    | cons e evs ih => simp [pushEvent, ih]
  · induction q with
    | nil => rfl
    | cons e rest ih => simp [drainLoop, ih]
  · induction q with
    | nil => rfl
    | cons e rest ih => simp [drainLoop, ih]

/-- Python `label.lstrip("#")`: remove every leading hash mark. -/
def lstripHash (s : String) : String :=
  ⟨s.data.dropWhile (fun c => c = '#')⟩

/-- Tag resolution at the top of `_unsubscribe`: the selected Listbox label
stripped of leading '#' when a selection exists, else the sanitized entry
text. -/
def resolveUnsubTag (selLabel : Option String) (entry : String) : String :=
  match selLabel with
  | some label => lstripHash label
  | none => sanitize_hashtag entry

/-- The Listbox removal loop of `_unsubscribe`: delete the first label
whose `lstrip("#")` equals the tag. -/
def removeLabel (tag : String) : List String → List String
  | [] => []
  | l :: rest => if lstripHash l = tag then rest else l :: removeLabel tag rest

/-- Model of `SubscriberApp._unsubscribe`: returns the new state and the topic
passed to `client.unsubscribe`, when such a broker call is issued. -/
def unsubscribeStep (st : SubState) (selLabel : Option String)
    (entry : String) : SubState × Option String :=
  let tag := resolveUnsubTag selLabel entry
  if tag = "" ∨ tag ∉ st.subscribed then (st, none)
  else
    let st1 := { st with subscribed := st.subscribed.erase tag,
                         displayed := removeLabel tag st.displayed }
    if st.connected = true ∧ st.hasClient = true then
      (st1, some (TOPIC_STEM ++ tag))
    else (st1, none)

/-- C7: unsubscribing a tag that is not in the SubscriptionSet (or whose
resolved tag is empty) is a no-op: no broker `unsubscribe` call, state —
including the displayed list — unchanged. -/
theorem unsubscribe_noop (st : SubState) (selLabel : Option String)
    (entry : String)
    (h : resolveUnsubTag selLabel entry = "" ∨
         resolveUnsubTag selLabel entry ∉ st.subscribed) :
    unsubscribeStep st selLabel entry = (st, none) := by
  simp only [unsubscribeStep]
  rw [if_pos h]

/-- Witness for `unsubscribe_noop`: unsubscribing "news" while only "iot"
is subscribed changes nothing. -/
theorem unsubscribe_noop_witness :
    unsubscribeStep ⟨true, true, ["iot"], ["#iot"]⟩ none "news" =
      (⟨true, true, ["iot"], ["#iot"]⟩, none) :=
  unsubscribe_noop ⟨true, true, ["iot"], ["#iot"]⟩ none "news" (by decide)

end MqttTwitter

namespace MqttTwitter

/-- Observable effect of one `_toggle_connection` invocation. -/
inductive ToggleEffect where
  | missingDep
  | disconnected
  | startAttempt
  deriving Repr, DecidableEq

/-- State observed by `_toggle_connection`: whether paho-mqtt imported,
the `connected` flag, and the count of connect workers started by
`_connect_async` whose attempt has not yet completed.  The source keeps no
"connecting" flag: each `_connect_async` call unconditionally spawns a new
worker thread with a fresh client. -/
structure ConnState where
  mqttAvailable : Bool
  connected : Bool
  attemptsInFlight : Nat
  deriving Repr, DecidableEq

/-- Model of `_toggle_connection` (identical logic in both apps): error dialog when
paho-mqtt is missing; `client.disconnect` when connected; otherwise
`_connect_async`, which starts one more connection attempt. -/
def toggleConnection (st : ConnState) : ConnState × ToggleEffect :=
  if st.mqttAvailable = false then (st, .missingDep)
  else if st.connected = true then
    ({ st with connected := false }, .disconnected)
  else
    ({ st with attemptsInFlight := st.attemptsInFlight + 1 }, .startAttempt)

/-- Counterexample to C8: with one attempt already outstanding (and not yet
connected), pressing Connect again starts a second attempt instead of being
rejected or ignored, so two attempts are in flight. -/
theorem connect_not_single_flight :
    ¬ ((toggleConnection ⟨true, false, 1⟩).1.attemptsInFlight ≤ 1) := by
  decide

/-- C8 (amended): while a connection attempt is outstanding the `connected`
flag is still false, and `_toggle_connection` has no guard for this case:
every further call starts one more attempt (a new worker thread and
client), so the number of in-flight attempts grows by one each time. -/
theorem connect_unguarded (st : ConnState) (hm : st.mqttAvailable = true)
    (hc : st.connected = false) :
    (toggleConnection st).2 = .startAttempt ∧
    (toggleConnection st).1.attemptsInFlight = st.attemptsInFlight + 1 := by
  simp [toggleConnection, hm, hc]

/-- Witness for `connect_unguarded` at a state with one outstanding
attempt. -/
theorem connect_unguarded_witness :
    (toggleConnection ⟨true, false, 1⟩).2 = .startAttempt ∧
    (toggleConnection ⟨true, false, 1⟩).1.attemptsInFlight = 1 + 1 :=
  connect_unguarded ⟨true, false, 1⟩ rfl rfl

/-- How one connect attempt completes: either the worker body
(`mqtt.Client()` / `connect` / `loop_start`) raised, or the `_on_connect`
callback fired with a reason code. -/
inductive ConnectOutcome where
  | raised (msg : String)
  | completed (reasonCode : Nat)
  deriving Repr, DecidableEq

/-- Status events enqueued by one completed connect attempt: the worker's
except-branch on a raise, `_on_connect`'s branches otherwise. -/
def connectAttemptEvents : ConnectOutcome → List StatusEvent
  | .raised msg => [(.error, "Connection failed: " ++ msg)]
  | .completed rc =>
    if rc = 0 then [(.connected, "Connected to broker.")]
    else [(.error, "Failed to connect. Code: " ++ toString rc)]

/-- C9: each completed connect attempt enqueues exactly one status event;
it is a `connected` event iff the reason code is 0, and an `error` event
otherwise (including when the connect call raised) — never both, never
neither. -/
theorem connect_emits_one_event (o : ConnectOutcome) :
    (connectAttemptEvents o).length = 1 ∧
    ((∃ msg, (StatusKind.connected, msg) ∈ connectAttemptEvents o) ↔
      o = .completed 0) ∧
    ((∃ msg, (StatusKind.error, msg) ∈ connectAttemptEvents o) ↔
      o ≠ .completed 0) := by
  match o with
  | .raised msg => simp [connectAttemptEvents]
  | .completed rc =>
    by_cases h : rc = 0
    · subst h
      simp [connectAttemptEvents]
    · simp [connectAttemptEvents, h]

end MqttTwitter

namespace MqttTwitter

/-- The replacement character U+FFFD used by `errors="replace"`. -/
def replacementChar : Char := Char.ofNat 0xFFFD

/-- Is `b` a UTF-8 continuation byte? -/
def isCont (b : Nat) : Bool := 0x80 ≤ b && b ≤ 0xBF

/-- Allowed range of the second byte of a multi-byte UTF-8 sequence, which
depends on the lead byte (tighter at the lead values that would otherwise
admit overlong forms, surrogates, or code points above U+10FFFF). -/
def cont2Lo (b : Nat) : Nat :=
  if b = 0xE0 then 0xA0 else if b = 0xF0 then 0x90 else 0x80

def cont2Hi (b : Nat) : Nat :=
  if b = 0xED then 0x9F else if b = 0xF4 then 0x8F else 0xBF

/-- Streaming decoder state: `need` continuation bytes still expected
(0 = no multi-byte sequence pending), `acc` the code point accumulated so
far, and `[lo, hi]` the admissible range of the next continuation byte. -/
structure DecState where
  need : Nat
  acc : Nat
  lo : Nat
  hi : Nat
  deriving Repr, DecidableEq

/-- The idle decoder state. -/
def decIdle : DecState := ⟨0, 0, 0, 0⟩

/-- Classify a byte in the idle state: ASCII emits itself, a valid lead
byte opens a pending sequence, anything else is one invalid subpart and
emits U+FFFD. -/
def leadStep (b : Nat) : DecState × List Char :=
  if b < 0x80 then (decIdle, [Char.ofNat b])
  else if 0xC2 ≤ b ∧ b ≤ 0xDF then (⟨1, b - 0xC0, 0x80, 0xBF⟩, [])
  else if 0xE0 ≤ b ∧ b ≤ 0xEF then (⟨2, b - 0xE0, cont2Lo b, cont2Hi b⟩, [])
  else if 0xF0 ≤ b ∧ b ≤ 0xF4 then (⟨3, b - 0xF0, cont2Lo b, cont2Hi b⟩, [])
  else (decIdle, [replacementChar])

/-- One pass over the bytes.  An out-of-range continuation byte closes the
pending maximal invalid subpart with one U+FFFD and is then reconsidered as
a lead byte; a sequence still pending at the end of input also becomes one
U+FFFD. -/
def utf8Go : DecState → List Nat → List Char
  | st, [] => if st.need = 0 then [] else [replacementChar]
  | st, b :: rest =>
    if st.need = 0 then
      (leadStep b).2 ++ utf8Go (leadStep b).1 rest
    else if st.lo ≤ b ∧ b ≤ st.hi then
      if st.need = 1 then
        Char.ofNat (st.acc * 64 + (b - 0x80)) :: utf8Go decIdle rest
      else utf8Go ⟨st.need - 1, st.acc * 64 + (b - 0x80), 0x80, 0xBF⟩ rest
    else
      replacementChar :: ((leadStep b).2 ++ utf8Go (leadStep b).1 rest)

/-- Model of `bytes.decode("utf-8", errors="replace")`: standard UTF-8 decoding
where each maximal invalid subpart becomes one U+FFFD.  Total on all byte
sequences. -/
def decodeUtf8Replace (l : List Nat) : List Char :=
  utf8Go decIdle l

/-- Model of `SubscriberApp._on_message`: decode the payload with replacement (the
decode cannot raise, so the except-branch producing "<binary payload>" is
dead code) and put `"[<topic>] <payload-text>"` on `msg_queue`. -/
def onMessage (q : List String) (topic : String) (payload : List Nat) :
    List String :=
  pushEvent q ("[" ++ topic ++ "] " ++ String.mk (decodeUtf8Replace payload))

theorem leadStep_cases (b : Nat) :
    (leadStep b).1.need ≠ 0 ∨ (leadStep b).2.length = 1 := by
  unfold leadStep
  repeat' split
  all_goals simp [decIdle]

theorem utf8Go_ne_nil (l : List Nat) :
    ∀ st : DecState, l ≠ [] ∨ st.need ≠ 0 → utf8Go st l ≠ [] := by
  induction l with
  | nil =>
    intro st h
    rcases h with h | h
    · exact absurd rfl h
    · simp [utf8Go, h]
  | cons b rest ih =>
    intro st _
    simp only [utf8Go]
    split
    · rcases leadStep_cases b with hn | hlen
      · intro hcontra
        exact ih (leadStep b).1 (Or.inr hn) (List.append_eq_nil.mp hcontra).2
      · intro hcontra
        rw [(List.append_eq_nil.mp hcontra).1] at hlen
        simp at hlen
    · split
      · split
        · simp
        · refine ih _ (Or.inr ?_)
          show st.need - 1 ≠ 0
          omega
      · simp

theorem decodeUtf8Replace_ne_nil (b : Nat) (rest : List Nat) :
    decodeUtf8Replace (b :: rest) ≠ [] :=
  utf8Go_ne_nil (b :: rest) decIdle (Or.inl (by simp))

/-- C10: the message handler is total: for every inbound message — empty
or undecodable payloads included — it enqueues exactly one entry, of the
form `"[<topic>] <payload-text>"`, appended at the back of `msg_queue`;
invalid bytes are replaced (yielding U+FFFD), never dropped along with the
message. -/
theorem on_message_total (q : List String) (topic : String)
    (payload : List Nat) :
    (onMessage q topic payload).length = q.length + 1 ∧
    (onMessage q topic payload).getLast? =
      some ("[" ++ topic ++ "] " ++ String.mk (decodeUtf8Replace payload)) ∧
    (payload ≠ [] → decodeUtf8Replace payload ≠ []) ∧
    decodeUtf8Replace [0xFF, 0x41] = [replacementChar, 'A'] := by
  refine ⟨?_, ?_, ?_, by decide⟩
  · simp [onMessage, pushEvent]
  · simp [onMessage, pushEvent]
  · intro hne
    match payload with
    | [] => exact absurd rfl hne
    | b :: rest => exact decodeUtf8Replace_ne_nil b rest

/-- Witness for `on_message_total` at a message whose payload is not valid
UTF-8. -/
theorem on_message_total_witness :
    (onMessage [] "twitter/iot" [0xFF, 0x41]).length = 0 + 1 ∧
    (onMessage [] "twitter/iot" [0xFF, 0x41]).getLast? =
      some ("[" ++ "twitter/iot" ++ "] " ++
        String.mk (decodeUtf8Replace [0xFF, 0x41])) ∧
    decodeUtf8Replace [0xFF, 0x41] ≠ [] := by
  have h := on_message_total [] "twitter/iot" [0xFF, 0x41]
  exact ⟨by simpa using h.1, h.2.1, h.2.2.1 (by decide)⟩

end MqttTwitter

/-!
Cross-validation of the UTF-8 replacement decoder on valid sequences,
lone lead and continuation bytes, truncations, overlong forms, surrogates
and out-of-range code points (expected values are CPython's outputs for
`bytes.decode` with `errors="replace"`).
-/
section decoderChecks
open MqttTwitter
example : decodeUtf8Replace [0x68, 0x65, 0x6C, 0x6C, 0x6F] = [Char.ofNat 104, Char.ofNat 101, Char.ofNat 108, Char.ofNat 108, Char.ofNat 111] := by decide
example : decodeUtf8Replace [0xC2, 0xA9] = [Char.ofNat 169] := by decide
example : decodeUtf8Replace [0xE2, 0x82, 0xAC] = [Char.ofNat 8364] := by decide
example : decodeUtf8Replace [0xF0, 0x9F, 0x98, 0x80] = [Char.ofNat 128512] := by decide
example : decodeUtf8Replace [0xFF, 0x41] = [Char.ofNat 65533, Char.ofNat 65] := by decide
example : decodeUtf8Replace [0xC2, 0x41] = [Char.ofNat 65533, Char.ofNat 65] := by decide
example : decodeUtf8Replace [0xE0, 0x80] = [Char.ofNat 65533, Char.ofNat 65533] := by decide
example : decodeUtf8Replace [0xE0, 0xA0, 0x41] = [Char.ofNat 65533, Char.ofNat 65] := by decide
example : decodeUtf8Replace [0xED, 0xA0, 0x80] = [Char.ofNat 65533, Char.ofNat 65533, Char.ofNat 65533] := by decide
example : decodeUtf8Replace [0xF4, 0x90, 0x80, 0x80] = [Char.ofNat 65533, Char.ofNat 65533, Char.ofNat 65533, Char.ofNat 65533] := by decide
example : decodeUtf8Replace [0xF0, 0x90, 0x80] = [Char.ofNat 65533] := by decide
example : decodeUtf8Replace [0xC0, 0x80] = [Char.ofNat 65533, Char.ofNat 65533] := by decide
example : decodeUtf8Replace [0x80, 0x80] = [Char.ofNat 65533, Char.ofNat 65533] := by decide
example : decodeUtf8Replace [0x61, 0xC2] = [Char.ofNat 97, Char.ofNat 65533] := by decide
example : decodeUtf8Replace [0xE2, 0x82] = [Char.ofNat 65533] := by decide
example : decodeUtf8Replace [0xF0, 0x9F, 0x98] = [Char.ofNat 65533] := by decide
example : decodeUtf8Replace [0xBF] = [Char.ofNat 65533] := by decide
example : decodeUtf8Replace [0xC2, 0xC2, 0xA9] = [Char.ofNat 65533, Char.ofNat 169] := by decide
example : decodeUtf8Replace [0xF0, 0x28, 0x8C, 0x28] = [Char.ofNat 65533, Char.ofNat 40, Char.ofNat 65533, Char.ofNat 40] := by decide
end decoderChecks
